import Mathlib

/-!
# Verification of the MOQT client control-plane layer

A shallow embedding of the repository's message codec (`moqt/messages/setup.py`),
the client session handshake handler and facade (`moqt/client.py`), and the
QUIC variable-length-integer buffer operations of the `aioquic.buffer.Buffer`
dependency that the codec is built on.

Bytes are modelled as natural numbers below 256 in a `List Nat`; Python byte
strings become such lists.  Operations that can raise (`BufferReadError`,
`ValueError`, `TypeError`) return `Option`/`none` at the failure point.
Python dictionaries become insertion-ordered association lists with
Python's assignment semantics (`dictInsert`).
-/

/-! ## Varint codec (`aioquic.buffer.Buffer` semantics)

`push_uint_var` writes the QUIC variable-length encoding of an integer:
1 byte for values below `2^6`, else 2/4/8 big-endian bytes with the two
top bits of the first byte holding the length tag (the tagged value is
`n`  OR'd with `0x4000` / `0x80000000` / `0xC000000000000000`, written
big-endian, spelled out below byte by byte).  Values of `2^62` and above
raise `ValueError` (`none`). -/
def pushUIntVar (n : Nat) : Option (List Nat) :=
  if n ≤ 0x3F then
    some [n]
  else if n ≤ 0x3FFF then
    some [n / 2 ^ 8 + 0x40, n % 2 ^ 8]
  else if n ≤ 0x3FFFFFFF then
    some [n / 2 ^ 24 + 0x80, n / 2 ^ 16 % 2 ^ 8, n / 2 ^ 8 % 2 ^ 8, n % 2 ^ 8]
  else if n ≤ 0x3FFFFFFFFFFFFFFF then
    some [n / 2 ^ 56 + 0xC0, n / 2 ^ 48 % 2 ^ 8, n / 2 ^ 40 % 2 ^ 8, n / 2 ^ 32 % 2 ^ 8,
      n / 2 ^ 24 % 2 ^ 8, n / 2 ^ 16 % 2 ^ 8, n / 2 ^ 8 % 2 ^ 8, n % 2 ^ 8]
  else
    none

/-- `pull_uint_var`: the top two bits of the first byte select a 1/2/4/8 byte
big-endian field whose remaining 6+8k bits are the value; reading past the end
of the buffer raises `BufferReadError` (`none`). -/
def pullUIntVar : List Nat → Option (Nat × List Nat)
  | [] => none
  | b :: rest =>
    if b < 0x40 then
      some (b, rest)
    else if b < 0x80 then
      match rest with
      | b1 :: r => some (b % 0x40 * 2 ^ 8 + b1, r)
      | _ => none
    else if b < 0xC0 then
      match rest with
      | b1 :: b2 :: b3 :: r =>
        some (b % 0x40 * 2 ^ 24 + b1 * 2 ^ 16 + b2 * 2 ^ 8 + b3, r)
      | _ => none
    else
      match rest with
      | b1 :: b2 :: b3 :: b4 :: b5 :: b6 :: b7 :: r =>
        some (b % 0x40 * 2 ^ 56 + b1 * 2 ^ 48 + b2 * 2 ^ 40 + b3 * 2 ^ 32 +
          b4 * 2 ^ 24 + b5 * 2 ^ 16 + b6 * 2 ^ 8 + b7, r)
      | _ => none

/-- `pull_bytes(n)`: the next `n` bytes, failing (`BufferReadError`) when fewer
remain. -/
def pullBytes (n : Nat) (data : List Nat) : Option (List Nat × List Nat) :=
  if n ≤ data.length then some (data.take n, data.drop n) else none

/-! ## Protocol constants

`moqt/moqtypes.py` is not under `src/`; the numeric values below are
modelled from the spec, which says the tags "must match a published
registry exactly" — these are the MOQT draft-07 registry values for the
message tags and the setup parameter keys (the spec itself fixes
`MAX_SUBSCRIBER_ID` at `0x02` in its concrete scenario). -/

/-- Modelled from the spec: CLIENT_SETUP tag from the published registry. -/
def MessageTypes.CLIENT_SETUP : Nat := 0x40

/-- Modelled from the spec: SERVER_SETUP tag from the published registry. -/
def MessageTypes.SERVER_SETUP : Nat := 0x41

/-- Modelled from the spec: GOAWAY tag from the published registry. -/
def MessageTypes.GOAWAY : Nat := 0x10

/-- Modelled from the spec: client-role setup parameter key. -/
def SetupParamType.CLIENT_ROLE : Nat := 0x00

/-- Modelled from the spec: endpoint-path setup parameter key. -/
def SetupParamType.ENDPOINT_PATH : Nat := 0x01

/-- Setup parameter key for "max subscriber id"; the spec's concrete scenario
fixes it at `0x02`. -/
def SetupParamType.MAX_SUBSCRIBER_ID : Nat := 0x02

/-! ## Parameter maps

The deserializers store either the raw byte string of a parameter or, for
`MAX_SUBSCRIBER_ID`, the integer decoded from it, so a stored parameter
value is one of the two. -/

/-- A value stored in a message's parameter map: a Python `bytes` or the
`int` that `deserialize` produces for the `MAX_SUBSCRIBER_ID` key. -/
inductive ParamValue where
  | bytes (bs : List Nat)
  | vint (n : Nat)
  deriving DecidableEq

/-- Python dict assignment `d[k] = v` on an insertion-ordered association
list: overwrite in place when the key exists, else append. -/
def dictInsert (l : List (Nat × ParamValue)) (k : Nat) (v : ParamValue) :
    List (Nat × ParamValue) :=
  if l.any (fun p => p.1 = k) then
    l.map (fun p => if p.1 = k then (k, v) else p)
  else
    l ++ [(k, v)]

/-- `len(param_value)` used by `serialize`'s length prefix: defined for
`bytes`, a `TypeError` (`none`) for an `int` value. -/
def paramBytes : ParamValue → Option (List Nat)
  | ParamValue.bytes bs => some bs
  | ParamValue.vint _ => none

/-- The parameter-serialization loop shared by `ClientSetup.serialize` and
`ServerSetup.serialize`: for each entry, key varint, value-length varint,
raw value bytes. -/
def serializeParamEntries : List (Nat × ParamValue) → Option (List Nat)
  | [] => some []
  | (pid, pv) :: rest => do
    let idB ← pushUIntVar pid
    let vB ← paramBytes pv
    let lenB ← pushUIntVar vB.length
    let restB ← serializeParamEntries rest
    return idB ++ lenB ++ vB ++ restB

/-- The parameter-deserialization loop of `ServerSetup.deserialize`
(`for _ in range(param_count)`): pull key, length, value bytes; decode the
value as a varint for `MAX_SUBSCRIBER_ID`; keep raw bytes for
`CLIENT_ROLE`/`ENDPOINT_PATH`; for any other key, keep raw bytes and
`logger.error` the unknown key (collected in the second component).
Returns the parameter map, the error-logged keys, and the unread rest. -/
def pullParams :
    Nat → List (Nat × ParamValue) → List Nat → List Nat →
      Option (List (Nat × ParamValue) × List Nat × List Nat)
  | 0, acc, logged, data => some (acc, logged, data)
  | count + 1, acc, logged, data => do
    let (pid, d1) ← pullUIntVar data
    let (plen, d2) ← pullUIntVar d1
    let (pval, d3) ← pullBytes plen d2
    if pid = SetupParamType.MAX_SUBSCRIBER_ID then do
      let (n, _) ← pullUIntVar pval
      pullParams count (dictInsert acc pid (ParamValue.vint n)) logged d3
    else if pid = SetupParamType.CLIENT_ROLE ∨ pid = SetupParamType.ENDPOINT_PATH then
      pullParams count (dictInsert acc pid (ParamValue.bytes pval)) logged d3
    else
      pullParams count (dictInsert acc pid (ParamValue.bytes pval)) (logged ++ [pid]) d3

/-! ## ServerSetup -/

/-- The `Buffer(capacity=32)` allocation both setup serializers use for the
outer buffer and for the payload buffer.  An aioquic `Buffer` is
fixed-capacity: a push that would run past the capacity raises
`BufferWriteError`.  The model checks the accumulated length against the
capacity once at the end, which is extensionally the same: the writes are
sequential and monotonic, so the final length exceeds the capacity exactly
when some push crossed it. -/
def BUFFER_CAPACITY : Nat := 32

/-- `ServerSetup` dataclass: `type`, `selected_version`, `parameters`. -/
structure ServerSetup where
  type : Nat
  selected_version : Nat
  parameters : List (Nat × ParamValue)
  deriving DecidableEq

/-- The `ServerSetup(...)` dataclass constructor followed by
`__post_init__`, which assigns `self.type = MessageTypes.SERVER_SETUP`
unconditionally — any `type` argument (`type0`, `none` when omitted) is
overwritten. -/
def ServerSetup.create (_type0 : Option Nat) (selected_version : Nat)
    (parameters : List (Nat × ParamValue)) : ServerSetup :=
  { type := MessageTypes.SERVER_SETUP, selected_version := selected_version,
    parameters := parameters }

/-- The `payload = Buffer(capacity=32)` buffer built by
`ServerSetup.serialize`: selected version, parameter count, then the
parameter entries; pushing past the 32-byte capacity raises
`BufferWriteError` (`none`). -/
def ServerSetup.payload (m : ServerSetup) : Option (List Nat) := do
  let verB ← pushUIntVar m.selected_version
  let cntB ← pushUIntVar m.parameters.length
  let entriesB ← serializeParamEntries m.parameters
  let pl := verB ++ cntB ++ entriesB
  if pl.length ≤ BUFFER_CAPACITY then some pl else none

/-- `ServerSetup.serialize`: the payload framed as
`[type varint][payload length varint][payload bytes]`, written into the
outer `buf = Buffer(capacity=32)` — past 32 bytes `BufferWriteError`
(`none`). -/
def ServerSetup.serialize (m : ServerSetup) : Option (List Nat) := do
  let pl ← m.payload
  let typeB ← pushUIntVar m.type
  let lenB ← pushUIntVar pl.length
  let out := typeB ++ lenB ++ pl
  if out.length ≤ BUFFER_CAPACITY then some out else none

/-- `ServerSetup.deserialize` together with the unknown-key error log:
selected version, parameter count, then the parameter loop. -/
def ServerSetup.deserializeWithLog (data : List Nat) :
    Option (ServerSetup × List Nat) := do
  let (version, d1) ← pullUIntVar data
  let (param_count, d2) ← pullUIntVar d1
  let (params, logged, _) ← pullParams param_count [] [] d2
  return (ServerSetup.create none version params, logged)

/-- `ServerSetup.deserialize` (the message alone). -/
def ServerSetup.deserialize (data : List Nat) : Option ServerSetup :=
  (ServerSetup.deserializeWithLog data).map Prod.fst

/-! ## ClientSetup -/

/-- `ClientSetup` dataclass: `type`, `versions`, `parameters`. -/
structure ClientSetup where
  type : Nat
  versions : List Nat
  parameters : List (Nat × ParamValue)
  deriving DecidableEq

/-- The `ClientSetup(...)` constructor followed by `__post_init__`
(`self.type = MessageTypes.CLIENT_SETUP`, overriding any `type` argument). -/
def ClientSetup.create (_type0 : Option Nat) (versions : List Nat)
    (parameters : List (Nat × ParamValue)) : ClientSetup :=
  { type := MessageTypes.CLIENT_SETUP, versions := versions,
    parameters := parameters }

/-- The version-list loop of `ClientSetup.serialize`: each supported version
as a varint (the count is pushed before this loop). -/
def pushVersionList : List Nat → Option (List Nat)
  | [] => some []
  | v :: vs => do
    let vB ← pushUIntVar v
    let restB ← pushVersionList vs
    return vB ++ restB

/-- The `payload = Buffer(capacity=32)` buffer built by
`ClientSetup.serialize`: version count, versions, parameter count,
parameter entries; pushing past the 32-byte capacity raises
`BufferWriteError` (`none`). -/
def ClientSetup.payload (m : ClientSetup) : Option (List Nat) := do
  let vcntB ← pushUIntVar m.versions.length
  let versB ← pushVersionList m.versions
  let pcntB ← pushUIntVar m.parameters.length
  let entriesB ← serializeParamEntries m.parameters
  let pl := vcntB ++ versB ++ pcntB ++ entriesB
  if pl.length ≤ BUFFER_CAPACITY then some pl else none

/-- `ClientSetup.serialize`: the payload framed as
`[type varint][payload length varint][payload bytes]`, written into the
outer `buf = Buffer(capacity=32)` — past 32 bytes `BufferWriteError`
(`none`). -/
def ClientSetup.serialize (m : ClientSetup) : Option (List Nat) := do
  let pl ← m.payload
  let typeB ← pushUIntVar m.type
  let lenB ← pushUIntVar pl.length
  let out := typeB ++ lenB ++ pl
  if out.length ≤ BUFFER_CAPACITY then some out else none

/-- The version-reading loop of `ClientSetup.deserialize`
(`for _ in range(version_count)`). -/
def pullVersions : Nat → List Nat → List Nat → Option (List Nat × List Nat)
  | 0, acc, data => some (acc, data)
  | count + 1, acc, data => do
    let (v, rest) ← pullUIntVar data
    pullVersions count (acc ++ [v]) rest

/-- `ClientSetup.deserialize`, modelled faithfully to the source: the
`return cls(...)` statement sits INSIDE the `for _ in range(param_count)`
loop body, so when `param_count = 0` the loop never runs, control falls off
the end of the function and Python returns `None` (the inner `none`); when
`param_count ≥ 1` the function returns after decoding only the first
parameter.  The outer `Option` is a raised decoding error. -/
def ClientSetup.deserialize (data : List Nat) : Option (Option ClientSetup) := do
  let (version_count, d1) ← pullUIntVar data
  let (versions, d2) ← pullVersions version_count [] d1
  let (param_count, d3) ← pullUIntVar d2
  if param_count = 0 then
    return none
  else do
    let (pid, d4) ← pullUIntVar d3
    let (plen, d5) ← pullUIntVar d4
    let (pval, _) ← pullBytes plen d5
    let pv ←
      if pid = SetupParamType.MAX_SUBSCRIBER_ID then
        (pullUIntVar pval).map (fun p => ParamValue.vint p.1)
      else
        some (ParamValue.bytes pval)
    return some (ClientSetup.create none versions (dictInsert [] pid pv))

/-! ## GoAway -/

/-- `GoAway` dataclass: `type` and the new-session URI.  A Python `str` is
identified with its UTF-8 encoding, a byte list (`encode`/`decode` are
mutually inverse on it). -/
structure GoAway where
  type : Nat
  new_session_uri : List Nat
  deriving DecidableEq

/-- The `GoAway(...)` constructor followed by `__post_init__`
(`self.type = MessageTypes.GOAWAY`, overriding any `type` argument). -/
def GoAway.create (_type0 : Option Nat) (new_session_uri : List Nat) : GoAway :=
  { type := MessageTypes.GOAWAY, new_session_uri := new_session_uri }

/-- The payload bytes that `GoAway.serialize` writes after the frame:
URI length varint, then the URI bytes. -/
def GoAway.payload (m : GoAway) : Option (List Nat) := do
  let lenB ← pushUIntVar m.new_session_uri.length
  return lenB ++ m.new_session_uri

/-- `GoAway.serialize`: the declared payload size is computed as
`1 (uri length varint) + len(uri bytes)` — the `1` is hardcoded — and then
the type varint, size varint, URI length varint and URI bytes are written
into `buf = Buffer(capacity=32 + len(uri))`; pushing past that capacity
raises `BufferWriteError` (`none`).  (The Python capacity uses the str's
character count, which under this file's byte-list identification of the
str equals the byte count.) -/
def GoAway.serialize (m : GoAway) : Option (List Nat) := do
  let payload_size := 1 + m.new_session_uri.length
  let typeB ← pushUIntVar m.type
  let sizeB ← pushUIntVar payload_size
  let pl ← m.payload
  let out := typeB ++ sizeB ++ pl
  if out.length ≤ BUFFER_CAPACITY + m.new_session_uri.length then some out
  else none

/-- `GoAway.deserialize`: URI length varint, then that many URI bytes. -/
def GoAway.deserialize (data : List Nat) : Option GoAway := do
  let (uri_len, d1) ← pullUIntVar data
  let (uri, _) ← pullBytes uri_len d1
  return GoAway.create none uri

/-- Reading an outer message frame `[type varint][length varint][payload]`,
as the receiving side does once before handing the payload to
`deserialize`: the type tag, the declared payload length, and the bytes
following the two varints. -/
def parseFrame (bs : List Nat) : Option (Nat × Nat × List Nat) := do
  let (t, r1) ← pullUIntVar bs
  let (len, r2) ← pullUIntVar r1
  return (t, len, r2)

/-- Stripping the outer frame the way the receiving contract prescribes:
read the type varint and the payload-length varint, then take exactly the
DECLARED number of bytes as the payload handed to `deserialize` ("the
frame is read once to know how many bytes to pass in"). -/
def stripFrame (bs : List Nat) : Option (Nat × List Nat) := do
  let (t, r1) ← pullUIntVar bs
  let (len, r2) ← pullUIntVar r1
  let (pl, _) ← pullBytes len r2
  return (t, pl)

/-! ## Client session handler (`moqt/client.py`, `handle_server_setup`) -/

/-- Modelled from the spec: `moqt/moqtypes.py` is not under `src/`; the
session close codes are abstract — only the protocol-violation code is
used by the embedded code. -/
inductive SessionCloseCode where
  | PROTOCOL_VIOLATION
  deriving DecidableEq

/-- The client-session state touched by `handle_server_setup`:
the `_moqt_session` readiness event, how many times `.set()` ran on it,
and the `close(error_code, reason_phrase)` invocations so far. -/
structure SessionState where
  moqt_session : Bool
  setCount : Nat
  closeCalls : List (SessionCloseCode × String)
  deriving DecidableEq

/-- The reason string built by the duplicate-`SERVER_SETUP` branch. -/
def duplicateSetupError : String := "Received duplicate SERVER_SETUP message"

/-- What a dispatched handler call does: returns normally, or raises. -/
inductive HandlerOutcome where
  | ok
  | raised (msg : String)
  deriving DecidableEq

/-- The `handle_server_setup` closure registered for `SERVER_SETUP` in
`MOQTClientProtocol.__init__`: when `_moqt_session` is already set it calls
`close` with `PROTOCOL_VIOLATION` and the duplicate-setup reason and raises
`RuntimeError`; otherwise it sets `_moqt_session`. -/
def handle_server_setup (st : SessionState) : SessionState × HandlerOutcome :=
  if st.moqt_session then
    ({ st with
        closeCalls :=
          st.closeCalls ++ [(SessionCloseCode.PROTOCOL_VIOLATION, duplicateSetupError)] },
      HandlerOutcome.raised duplicateSetupError)
  else
    ({ st with moqt_session := true, setCount := st.setCount + 1 },
      HandlerOutcome.ok)

/-! ## Session facade: `initialize` (`moqt/client.py`) -/

/-- How `initialize()` can end. -/
inductive InitOutcome where
  | ok
  | transportTimeout
  | handshakeTimeout
  deriving DecidableEq

/-- Session lifecycle phase after `initialize` returns or raises. -/
inductive SessionPhase where
  | established
  | closed
  deriving DecidableEq

/-- The environment `initialize` runs against: at what time-unit (if ever)
the transport-ready signal (`_wt_session`) fires, and at what time-unit
(if ever) the `SERVER_SETUP` handler sets `_moqt_session`. -/
structure InitEnv where
  wtReadyAt : Option Nat
  serverSetupAt : Option Nat

/-- `asyncio.wait_for(event.wait(), timeout)`: completes when the signal
fires within the bound, raises `TimeoutError` (`false`) when the signal
fires later or never. -/
def waitFor (timeout : Nat) (signalAt : Option Nat) : Bool :=
  match signalAt with
  | none => false
  | some t => t ≤ timeout

/-- The `timeout=30.0` bound on the WebTransport-session wait in
`initialize`. -/
def TRANSPORT_SETUP_TIMEOUT : Nat := 30

/-- The `timeout=10` bound on the `SERVER_SETUP` wait in `initialize`. -/
def MOQT_SETUP_TIMEOUT : Nat := 10

/-- Modelled from the spec: the protocol base class (`moqt/protocol.py`,
holding the session-lifecycle state) is not under `src/`.  Per spec §4.4,
a timeout transitions the machine to `Closed`; a completed handshake
leaves it `Established`. -/
def phaseAfterInit : InitOutcome → SessionPhase
  | InitOutcome.ok => SessionPhase.established
  | InitOutcome.transportTimeout => SessionPhase.closed
  | InitOutcome.handshakeTimeout => SessionPhase.closed

/-- `MOQTClientProtocol.initSession` — the source's session-initialization
method on `MOQTClientProtocol`: waits for the transport-ready signal
under the 30-time-unit bound (re-raising `TimeoutError` on expiry), then
sends `CLIENT_SETUP` and waits for the `SERVER_SETUP` signal under the
10-time-unit bound (re-raising on expiry); the resulting session phase is
`phaseAfterInit` of the outcome. -/
def MOQTClientProtocol.initSession (env : InitEnv) : InitOutcome × SessionPhase :=
  if waitFor TRANSPORT_SETUP_TIMEOUT env.wtReadyAt = false then
    (InitOutcome.transportTimeout, phaseAfterInit InitOutcome.transportTimeout)
  else if waitFor MOQT_SETUP_TIMEOUT env.serverSetupAt = false then
    (InitOutcome.handshakeTimeout, phaseAfterInit InitOutcome.handshakeTimeout)
  else
    (InitOutcome.ok, phaseAfterInit InitOutcome.ok)

/-! ## Session facade: `subscribe` (`moqt/client.py`)

`moqt/messages/subscribe.py` is not under `src/`, so the `Subscribe`
message is modelled from the spec (§4.2, §8): the sender's constructor
validates filter/bounds consistency, and the payload field order is
subscribe id, track alias, length-prefixed namespace, length-prefixed
track name, priority, group order, filter type, the bounds the filter
requires, then the Parameter Map. -/

/-- Subscription filter types (spec §4.2). -/
inductive FilterType where
  | LATEST_GROUP
  | LATEST_OBJECT
  | ABSOLUTE_START
  | ABSOLUTE_RANGE
  deriving DecidableEq

/-- Modelled from the spec: the published-registry wire code of each
filter type (`moqt/moqtypes.py` is not under `src/`). -/
def FilterType.code : FilterType → Nat
  | FilterType.LATEST_GROUP => 0x1
  | FilterType.LATEST_OBJECT => 0x2
  | FilterType.ABSOLUTE_START => 0x3
  | FilterType.ABSOLUTE_RANGE => 0x4

/-- Modelled from the spec: SUBSCRIBE tag from the published registry. -/
def MessageTypes.SUBSCRIBE : Nat := 0x03

/-- A constructed `Subscribe` message (modelled from the spec; the class
is in `moqt/messages/subscribe.py`, not under `src/`). -/
structure SubscribeMsg where
  subscribe_id : Nat
  track_alias : Nat
  namespace_bytes : List Nat
  track_name : List Nat
  priority : Nat
  group_order : Nat
  filter_type : FilterType
  start_group : Option Nat
  start_object : Option Nat
  end_group : Option Nat
  parameters : List (Nat × ParamValue)
  deriving DecidableEq

/-- Modelled from the spec: `Subscribe`'s constructor validation
(`moqt/messages/subscribe.py` is not under `src/`).  Spec §4.2/§8: "A
`Subscribe` message with a filter type that logically requires bounds but
omits them is a protocol-violation, detected by the sender's constructor"
— in particular `absolute-range` with `end_group = None` fails.  `none`
models the constructor raising before any message value exists. -/
def Subscribe.create (subscribe_id track_alias : Nat)
    (namespace_bytes track_name : List Nat) (priority group_order : Nat)
    (filter_type : FilterType) (start_group start_object end_group : Option Nat)
    (parameters : List (Nat × ParamValue)) : Option SubscribeMsg :=
  if filter_type = FilterType.ABSOLUTE_RANGE ∧ end_group = none then
    none
  else
    some
      { subscribe_id := subscribe_id
        track_alias := track_alias
        namespace_bytes := namespace_bytes
        track_name := track_name
        priority := priority
        group_order := group_order
        filter_type := filter_type
        start_group := start_group
        start_object := start_object
        end_group := end_group
        parameters := parameters }

/-- The bounds bytes a filter type puts on the wire (spec §4.2: present
only when the filter type requires them; absent bounds of a required kind
were already rejected by `Subscribe.create`, `0` stands in after that). -/
def pushBounds (ft : FilterType) (start_group start_object end_group : Option Nat) :
    Option (List Nat) :=
  match ft with
  | FilterType.LATEST_GROUP => some []
  | FilterType.LATEST_OBJECT => some []
  | FilterType.ABSOLUTE_START => do
    let sg ← pushUIntVar (start_group.getD 0)
    let so ← pushUIntVar (start_object.getD 0)
    return sg ++ so
  | FilterType.ABSOLUTE_RANGE => do
    let sg ← pushUIntVar (start_group.getD 0)
    let so ← pushUIntVar (start_object.getD 0)
    let eg ← pushUIntVar (end_group.getD 0)
    return sg ++ so ++ eg

/-- Modelled from the spec: `Subscribe.serialize`
(`moqt/messages/subscribe.py` is not under `src/`), following §4.2's
payload field order and the `[type][length][payload]` outer frame. -/
def SubscribeMsg.serializeSpec (m : SubscribeMsg) : Option (List Nat) := do
  let idB ← pushUIntVar m.subscribe_id
  let aliasB ← pushUIntVar m.track_alias
  let nsLenB ← pushUIntVar m.namespace_bytes.length
  let tnLenB ← pushUIntVar m.track_name.length
  let boundsB ← pushBounds m.filter_type m.start_group m.start_object m.end_group
  let pcntB ← pushUIntVar m.parameters.length
  let entriesB ← serializeParamEntries m.parameters
  let payload := idB ++ aliasB ++ nsLenB ++ m.namespace_bytes ++ tnLenB ++
    m.track_name ++ [m.priority % 2 ^ 8, m.group_order % 2 ^ 8, m.filter_type.code] ++
    boundsB ++ pcntB ++ entriesB
  let typeB ← pushUIntVar MessageTypes.SUBSCRIBE
  let lenB ← pushUIntVar payload.length
  return typeB ++ lenB ++ payload

/-- `MOQTClientProtocol.subscribe` on a control channel holding the byte
strings written so far: constructs the `Subscribe` (whose constructor
validates the filter/bounds — argument evaluation precedes the call to
`send_control_message`), serializes it, and appends the bytes to the
channel.  A raise during construction or serialization leaves the channel
untouched (`false`). -/
def MOQTClientProtocol.subscribe (chan : List (List Nat))
    (subscribe_id track_alias : Nat) (namespace_bytes track_name : List Nat)
    (priority group_order : Nat) (filter_type : FilterType)
    (start_group start_object end_group : Option Nat)
    (parameters : List (Nat × ParamValue)) : List (List Nat) × Bool :=
  match Subscribe.create subscribe_id track_alias namespace_bytes track_name
      priority group_order filter_type start_group start_object end_group
      parameters with
  | none => (chan, false)
  | some msg =>
    match msg.serializeSpec with
    | none => (chan, false)
    | some bs => (chan ++ [bs], true)

/-! ## Derived descriptions of the deserializers

Helper definitions used only to state theorems about the embedded code:
what the parameter loop of the deserializers computes, entry by entry. -/

/-- Whether a setup parameter key is in the known set of
`ServerSetup.deserialize`'s branch chain. -/
def isKnownParamKey (k : Nat) : Bool :=
  decide (k = SetupParamType.MAX_SUBSCRIBER_ID ∨ k = SetupParamType.CLIENT_ROLE ∨
    k = SetupParamType.ENDPOINT_PATH)

/-- How one serialized parameter entry comes back out of the
deserialization loop: a `MAX_SUBSCRIBER_ID` value is re-decoded as a
varint integer, every other value stays raw bytes. -/
def decodedParam : Nat × ParamValue → Nat × ParamValue
  | (k, v) =>
    if k = SetupParamType.MAX_SUBSCRIBER_ID then
      match v with
      | ParamValue.bytes bs =>
        match pullUIntVar bs with
        | some p => (k, ParamValue.vint p.1)
        | none => (k, ParamValue.bytes bs)
      | ParamValue.vint n => (k, ParamValue.vint n)
    else (k, v)

/-- The keys of a parameter list outside the known set — the ones the
deserialization loop reports via `logger.error`. -/
def unknownParamKeys (ps : List (Nat × ParamValue)) : List Nat :=
  (ps.map Prod.fst).filter (fun k => !(isKnownParamKey k))

/-- One step of the parameter loop's effect on the accumulated map and the
error-logged keys. -/
def parseStep (st : List (Nat × ParamValue) × List Nat) (kv : Nat × ParamValue) :
    List (Nat × ParamValue) × List Nat :=
  (dictInsert st.1 kv.1 (decodedParam kv).2,
    if isKnownParamKey kv.1 then st.2 else st.2 ++ [kv.1])

/-! ## Codec lemmas -/

/-- Decoding a pushed varint returns the pushed value and leaves the
following bytes untouched. -/
theorem pullUIntVar_pushUIntVar (n : Nat) (bs rest : List Nat)
    (h : pushUIntVar n = some bs) :
    pullUIntVar (bs ++ rest) = some (n, rest) := by
  unfold pushUIntVar at h
  split_ifs at h with h1 h2 h3 h4
  · injection h with h
    subst h
    simp only [List.cons_append, List.nil_append, pullUIntVar]
    rw [if_pos (by omega)]
  · injection h with h
    subst h
    simp only [List.cons_append, List.nil_append, pullUIntVar]
    rw [if_neg (by omega), if_pos (by omega)]
    show some ((n / 2 ^ 8 + 0x40) % 0x40 * 2 ^ 8 + n % 2 ^ 8, rest) = some (n, rest)
    have hv : (n / 2 ^ 8 + 0x40) % 0x40 * 2 ^ 8 + n % 2 ^ 8 = n := by omega
    rw [hv]
  · injection h with h
    subst h
    simp only [List.cons_append, List.nil_append, pullUIntVar]
    rw [if_neg (by omega), if_neg (by omega), if_pos (by omega)]
    show some ((n / 2 ^ 24 + 0x80) % 0x40 * 2 ^ 24 + n / 2 ^ 16 % 2 ^ 8 * 2 ^ 16 +
      n / 2 ^ 8 % 2 ^ 8 * 2 ^ 8 + n % 2 ^ 8, rest) = some (n, rest)
    have hv : (n / 2 ^ 24 + 0x80) % 0x40 * 2 ^ 24 + n / 2 ^ 16 % 2 ^ 8 * 2 ^ 16 +
        n / 2 ^ 8 % 2 ^ 8 * 2 ^ 8 + n % 2 ^ 8 = n := by omega
    rw [hv]
  · injection h with h
    subst h
    simp only [List.cons_append, List.nil_append, pullUIntVar]
    rw [if_neg (by omega), if_neg (by omega), if_neg (by omega)]
    show some ((n / 2 ^ 56 + 0xC0) % 0x40 * 2 ^ 56 + n / 2 ^ 48 % 2 ^ 8 * 2 ^ 48 +
      n / 2 ^ 40 % 2 ^ 8 * 2 ^ 40 + n / 2 ^ 32 % 2 ^ 8 * 2 ^ 32 +
      n / 2 ^ 24 % 2 ^ 8 * 2 ^ 24 + n / 2 ^ 16 % 2 ^ 8 * 2 ^ 16 +
      n / 2 ^ 8 % 2 ^ 8 * 2 ^ 8 + n % 2 ^ 8, rest) = some (n, rest)
    have hv : (n / 2 ^ 56 + 0xC0) % 0x40 * 2 ^ 56 + n / 2 ^ 48 % 2 ^ 8 * 2 ^ 48 +
        n / 2 ^ 40 % 2 ^ 8 * 2 ^ 40 + n / 2 ^ 32 % 2 ^ 8 * 2 ^ 32 +
        n / 2 ^ 24 % 2 ^ 8 * 2 ^ 24 + n / 2 ^ 16 % 2 ^ 8 * 2 ^ 16 +
        n / 2 ^ 8 % 2 ^ 8 * 2 ^ 8 + n % 2 ^ 8 = n := by omega
    rw [hv]

/-- Pulling exactly the length of a known byte block returns it and leaves
the rest. -/
theorem pullBytes_append (l rest : List Nat) :
    pullBytes l.length (l ++ rest) = some (l, rest) := by
  unfold pullBytes
  rw [if_pos (by simp)]
  rw [List.take_left, List.drop_left]

/-- Unfolding lemma: the `cons` case of `serializeParamEntries` as an
explicit `Option.bind` chain. -/
theorem serializeParamEntries_cons (pid : Nat) (pv : ParamValue)
    (rest : List (Nat × ParamValue)) :
    serializeParamEntries ((pid, pv) :: rest) =
      (pushUIntVar pid).bind fun idB =>
        (paramBytes pv).bind fun vB =>
          (pushUIntVar vB.length).bind fun lenB =>
            (serializeParamEntries rest).bind fun restB =>
              some (idB ++ lenB ++ vB ++ restB) := rfl

/-- Unfolding lemma: the successor case of `pullParams` as an explicit
`Option.bind` chain. -/
theorem pullParams_succ (count : Nat) (acc : List (Nat × ParamValue))
    (logged data : List Nat) :
    pullParams (count + 1) acc logged data =
      (pullUIntVar data).bind fun p1 =>
        (pullUIntVar p1.2).bind fun p2 =>
          (pullBytes p2.1 p2.2).bind fun p3 =>
            if p1.1 = SetupParamType.MAX_SUBSCRIBER_ID then
              (pullUIntVar p3.1).bind fun p4 =>
                pullParams count (dictInsert acc p1.1 (ParamValue.vint p4.1)) logged p3.2
            else if p1.1 = SetupParamType.CLIENT_ROLE ∨
                p1.1 = SetupParamType.ENDPOINT_PATH then
              pullParams count (dictInsert acc p1.1 (ParamValue.bytes p3.1)) logged p3.2
            else
              pullParams count (dictInsert acc p1.1 (ParamValue.bytes p3.1))
                (logged ++ [p1.1]) p3.2 := rfl

/-- `serializeParamEntries` succeeds only when every stored parameter value
is a byte string (an `int` value makes the `len(...)` length prefix raise
`TypeError`). -/
theorem serializeParamEntries_bytes (ps : List (Nat × ParamValue)) (bs : List Nat)
    (h : serializeParamEntries ps = some bs) :
    ∀ kv ∈ ps, ∃ v, kv.2 = ParamValue.bytes v := by
  induction ps generalizing bs with
  | nil =>
    intro kv hkv
    cases hkv
  | cons p ps ih =>
    obtain ⟨pid, pv⟩ := p
    rw [serializeParamEntries_cons] at h
    simp only [Option.bind_eq_some] at h
    obtain ⟨idB, hid, vB, hvB, lenB, hlen, restB, hrest, hbs⟩ := h
    intro kv hkv
    rw [List.mem_cons] at hkv
    rcases hkv with hkv | hkv
    · subst hkv
      cases pv with
      | bytes b => exact ⟨b, rfl⟩
      | vint m => simp [paramBytes] at hvB
    · exact ih restB hrest kv hkv

/-- Deserializing the serialized parameter entries consumes exactly their
bytes and folds `parseStep` over the entries: known keys keep (or, for
`MAX_SUBSCRIBER_ID`, varint-decode) their values silently, unknown keys
are stored raw and error-logged. -/
theorem pullParams_entries (ps : List (Nat × ParamValue)) :
    ∀ (acc : List (Nat × ParamValue)) (logged bs rest : List Nat),
      serializeParamEntries ps = some bs →
      (∀ kv ∈ ps, kv.1 = SetupParamType.MAX_SUBSCRIBER_ID →
        ∃ v, kv.2 = ParamValue.bytes v ∧ (pullUIntVar v).isSome) →
      pullParams ps.length acc logged (bs ++ rest) =
        some ((ps.foldl parseStep (acc, logged)).1,
          (ps.foldl parseStep (acc, logged)).2, rest) := by
  induction ps with
  | nil =>
    intro acc logged bs rest hser hmax
    simp only [serializeParamEntries, Option.some.injEq] at hser
    subst hser
    simp [pullParams]
  | cons p ps ih =>
    intro acc logged bs rest hser hmax
    obtain ⟨pid, pv⟩ := p
    rw [serializeParamEntries_cons] at hser
    simp only [Option.bind_eq_some] at hser
    obtain ⟨idB, hid, vB, hvB, lenB, hlen, restB, hrest, hbs⟩ := hser
    injection hbs with hbs
    subst hbs
    have hpv : pv = ParamValue.bytes vB := by
      cases pv with
      | bytes b =>
        simp only [paramBytes, Option.some.injEq] at hvB
        rw [hvB]
      | vint m => simp [paramBytes] at hvB
    subst hpv
    have e1 : (idB ++ lenB ++ vB ++ restB) ++ rest =
        idB ++ (lenB ++ (vB ++ (restB ++ rest))) := by
      simp [List.append_assoc]
    rw [List.length_cons, pullParams_succ, e1,
      pullUIntVar_pushUIntVar pid idB _ hid]
    simp only [Option.some_bind]
    rw [pullUIntVar_pushUIntVar vB.length lenB _ hlen]
    simp only [Option.some_bind]
    rw [pullBytes_append]
    simp only [Option.some_bind]
    rw [List.foldl_cons]
    by_cases hpid2 : pid = SetupParamType.MAX_SUBSCRIBER_ID
    · obtain ⟨w, hw, hwsome⟩ :=
        hmax (pid, ParamValue.bytes vB) (List.mem_cons_self _ _) hpid2
      have hwv : vB = w := by
        injection hw
      subst hwv
      obtain ⟨⟨nv, r0⟩, hpull⟩ := Option.isSome_iff_exists.mp hwsome
      rw [if_pos hpid2, hpull]
      simp only [Option.some_bind]
      have hk : isKnownParamKey pid = true := by
        simp only [isKnownParamKey, decide_eq_true_eq]
        exact Or.inl hpid2
      have hstep : parseStep (acc, logged) (pid, ParamValue.bytes vB) =
          (dictInsert acc pid (ParamValue.vint nv), logged) := by
        simp only [parseStep, decodedParam, hk, if_true]
        rw [if_pos hpid2, hpull]
      rw [hstep]
      exact ih (dictInsert acc pid (ParamValue.vint nv)) logged restB rest hrest
        (fun kv hkv => hmax kv (List.mem_cons_of_mem _ hkv))
    · by_cases hpid01 : pid = SetupParamType.CLIENT_ROLE ∨
          pid = SetupParamType.ENDPOINT_PATH
      · rw [if_neg hpid2, if_pos hpid01]
        have hk : isKnownParamKey pid = true := by
          simp only [isKnownParamKey, decide_eq_true_eq]
          exact Or.inr hpid01
        have hstep : parseStep (acc, logged) (pid, ParamValue.bytes vB) =
            (dictInsert acc pid (ParamValue.bytes vB), logged) := by
          simp only [parseStep, decodedParam, hk, if_true]
          rw [if_neg hpid2]
        rw [hstep]
        exact ih (dictInsert acc pid (ParamValue.bytes vB)) logged restB rest hrest
          (fun kv hkv => hmax kv (List.mem_cons_of_mem _ hkv))
      · rw [if_neg hpid2, if_neg hpid01]
        have hnk : isKnownParamKey pid = false := by
          simp only [isKnownParamKey, decide_eq_false_iff_not]
          push_neg
          push_neg at hpid01
          exact ⟨hpid2, hpid01.1, hpid01.2⟩
        have hstep : parseStep (acc, logged) (pid, ParamValue.bytes vB) =
            (dictInsert acc pid (ParamValue.bytes vB), logged ++ [pid]) := by
          simp only [parseStep, decodedParam, hnk, Bool.false_eq_true, if_false]
          rw [if_neg hpid2]
        rw [hstep]
        exact ih (dictInsert acc pid (ParamValue.bytes vB)) (logged ++ [pid]) restB rest
          hrest (fun kv hkv => hmax kv (List.mem_cons_of_mem _ hkv))

/-- Unfolding lemma: `ServerSetup.payload` as an explicit bind chain. -/
theorem serverSetup_payload_eq (m : ServerSetup) :
    m.payload =
      (pushUIntVar m.selected_version).bind fun verB =>
        (pushUIntVar m.parameters.length).bind fun cntB =>
          (serializeParamEntries m.parameters).bind fun entriesB =>
            if (verB ++ cntB ++ entriesB).length ≤ BUFFER_CAPACITY then
              some (verB ++ cntB ++ entriesB)
            else none := rfl

/-- Unfolding lemma: `ServerSetup.deserializeWithLog` as an explicit bind
chain. -/
theorem serverSetup_deserializeWithLog_eq (data : List Nat) :
    ServerSetup.deserializeWithLog data =
      (pullUIntVar data).bind fun p1 =>
        (pullUIntVar p1.2).bind fun p2 =>
          (pullParams p2.1 [] [] p2.2).bind fun p3 =>
            some (ServerSetup.create none p1.1 p3.1, p3.2.1) := rfl

/-- `decodedParam` never changes the key of an entry. -/
theorem decodedParam_fst (kv : Nat × ParamValue) : (decodedParam kv).1 = kv.1 := by
  obtain ⟨k, v⟩ := kv
  simp only [decodedParam]
  split_ifs with h
  · cases v with
    | bytes bs => cases hpull : pullUIntVar bs <;> simp [hpull]
    | vint n => simp
  · rfl

/-- Python dict assignment with a key absent from the map appends the
entry. -/
theorem dictInsert_fresh (acc : List (Nat × ParamValue)) (k : Nat) (v : ParamValue)
    (h : ∀ kv ∈ acc, kv.1 ≠ k) : dictInsert acc k v = acc ++ [(k, v)] := by
  unfold dictInsert
  rw [if_neg]
  simp only [List.any_eq_true, decide_eq_true_eq, not_exists]
  intro kv
  rw [not_and]
  exact h kv

/-- `unknownParamKeys` over a cons. -/
theorem unknownParamKeys_cons (kv : Nat × ParamValue) (ps : List (Nat × ParamValue)) :
    unknownParamKeys (kv :: ps) =
      (if isKnownParamKey kv.1 then [] else [kv.1]) ++ unknownParamKeys ps := by
  simp only [unknownParamKeys, List.map_cons, List.filter_cons]
  by_cases hk : isKnownParamKey kv.1
  · rw [if_pos hk]
    simp [hk]
  · rw [if_neg hk]
    simp [hk]

/-- Folding the parameter loop from fresh accumulators: when the entry keys
are distinct and none is already accumulated, the result is the decoded
entries appended in order, with the unknown keys appended to the log. -/
theorem foldl_parseStep_append (ps : List (Nat × ParamValue)) :
    ∀ (acc : List (Nat × ParamValue)) (logged : List Nat),
      (ps.map Prod.fst).Nodup →
      (∀ kv ∈ acc, ∀ kw ∈ ps, kv.1 ≠ kw.1) →
      ps.foldl parseStep (acc, logged) =
        (acc ++ ps.map decodedParam, logged ++ unknownParamKeys ps) := by
  induction ps with
  | nil =>
    intro acc logged _ _
    simp [unknownParamKeys]
  | cons kv ps ih =>
    intro acc logged hnodup hdisj
    rw [List.map_cons, List.nodup_cons] at hnodup
    obtain ⟨hknotin, hnodup⟩ := hnodup
    rw [List.foldl_cons]
    have hfresh : ∀ p ∈ acc, p.1 ≠ kv.1 :=
      fun p hp => hdisj p hp kv (List.mem_cons_self _ _)
    have hdp : (kv.1, (decodedParam kv).2) = decodedParam kv := by
      rw [← decodedParam_fst kv]
    have hstep : parseStep (acc, logged) kv =
        (acc ++ [decodedParam kv],
          if isKnownParamKey kv.1 then logged else logged ++ [kv.1]) := by
      simp only [parseStep]
      rw [dictInsert_fresh acc kv.1 (decodedParam kv).2 hfresh, hdp]
    have hdisj2 : ∀ p ∈ acc ++ [decodedParam kv], ∀ kw ∈ ps, p.1 ≠ kw.1 := by
      intro p hp kw hkw
      rw [List.mem_append] at hp
      rcases hp with hp | hp
      · exact hdisj p hp kw (List.mem_cons_of_mem _ hkw)
      · rw [List.mem_singleton] at hp
        subst hp
        rw [decodedParam_fst]
        intro he
        apply hknotin
        rw [he]
        exact List.mem_map_of_mem Prod.fst hkw
    rw [hstep, unknownParamKeys_cons, List.map_cons]
    by_cases hk : isKnownParamKey kv.1
    · rw [if_pos hk, if_pos hk, ih _ _ hnodup hdisj2]
      simp [List.append_assoc]
    · rw [if_neg hk, if_neg hk, ih _ _ hnodup hdisj2]
      simp [List.append_assoc]

/-- Feeding `ServerSetup.deserializeWithLog` the payload its serializer
produced returns the message with every parameter decoded by
`decodedParam`, with the unknown keys error-logged. -/
theorem ServerSetup.deserializeWithLog_payload (m : ServerSetup) (p : List Nat)
    (hp : m.payload = some p)
    (hnodup : (m.parameters.map Prod.fst).Nodup)
    (hmax : ∀ kv ∈ m.parameters, kv.1 = SetupParamType.MAX_SUBSCRIBER_ID →
      ∃ v, kv.2 = ParamValue.bytes v ∧ (pullUIntVar v).isSome) :
    ServerSetup.deserializeWithLog p =
      some (ServerSetup.create none m.selected_version
          (m.parameters.map decodedParam),
        unknownParamKeys m.parameters) := by
  rw [serverSetup_payload_eq] at hp
  simp only [Option.bind_eq_some] at hp
  obtain ⟨verB, hver, cntB, hcnt, entriesB, hent, hp⟩ := hp
  split_ifs at hp with hcap
  injection hp with hp
  subst hp
  rw [serverSetup_deserializeWithLog_eq]
  have e1 : verB ++ cntB ++ entriesB = verB ++ (cntB ++ (entriesB ++ [])) := by
    simp
  rw [e1, pullUIntVar_pushUIntVar _ _ _ hver]
  simp only [Option.some_bind]
  rw [pullUIntVar_pushUIntVar _ _ _ hcnt]
  simp only [Option.some_bind]
  rw [pullParams_entries m.parameters [] [] entriesB [] hent hmax]
  simp only [Option.some_bind]
  rw [foldl_parseStep_append m.parameters [] [] hnodup
    (fun kv hkv => absurd hkv (List.not_mem_nil kv))]
  simp

/-- Pulling exactly a whole buffer of known length returns it with an
empty tail. -/
theorem pullBytes_self (l : List Nat) : pullBytes l.length l = some (l, []) := by
  have h := pullBytes_append l []
  rwa [List.append_nil] at h

/-- Unfolding lemma: the `cons` case of `pushVersionList` as an explicit
bind chain. -/
theorem pushVersionList_cons (v : Nat) (vs : List Nat) :
    pushVersionList (v :: vs) =
      (pushUIntVar v).bind fun vB =>
        (pushVersionList vs).bind fun restB => some (vB ++ restB) := rfl

/-- Unfolding lemma: the successor case of `pullVersions` as an explicit
bind chain. -/
theorem pullVersions_succ (count : Nat) (acc data : List Nat) :
    pullVersions (count + 1) acc data =
      (pullUIntVar data).bind fun p => pullVersions count (acc ++ [p.1]) p.2 := rfl

/-- Reading back a pushed version list returns the versions in order and
leaves the following bytes untouched. -/
theorem pullVersions_pushVersionList (vs : List Nat) :
    ∀ (acc bs rest : List Nat), pushVersionList vs = some bs →
      pullVersions vs.length acc (bs ++ rest) = some (acc ++ vs, rest) := by
  induction vs with
  | nil =>
    intro acc bs rest h
    simp only [pushVersionList, Option.some.injEq] at h
    subst h
    simp [pullVersions]
  | cons v vs ih =>
    intro acc bs rest h
    rw [pushVersionList_cons] at h
    simp only [Option.bind_eq_some, Option.some.injEq] at h
    obtain ⟨vB, hv, restB, hrest, hbs⟩ := h
    subst hbs
    have e1 : (vB ++ restB) ++ rest = vB ++ (restB ++ rest) := by
      simp
    rw [List.length_cons, pullVersions_succ, e1, pullUIntVar_pushUIntVar _ _ _ hv]
    simp only [Option.some_bind]
    rw [ih (acc ++ [v]) restB rest hrest]
    simp

/-- Unfolding lemma: `ClientSetup.payload` as an explicit bind chain. -/
theorem clientSetup_payload_eq (m : ClientSetup) :
    m.payload =
      (pushUIntVar m.versions.length).bind fun vcntB =>
        (pushVersionList m.versions).bind fun versB =>
          (pushUIntVar m.parameters.length).bind fun pcntB =>
            (serializeParamEntries m.parameters).bind fun entriesB =>
              if (vcntB ++ versB ++ pcntB ++ entriesB).length ≤ BUFFER_CAPACITY then
                some (vcntB ++ versB ++ pcntB ++ entriesB)
              else none := rfl

/-- Unfolding lemma: `ClientSetup.deserialize` as an explicit bind chain. -/
theorem clientSetup_deserialize_eq (data : List Nat) :
    ClientSetup.deserialize data =
      (pullUIntVar data).bind fun p1 =>
        (pullVersions p1.1 [] p1.2).bind fun p2 =>
          (pullUIntVar p2.2).bind fun p3 =>
            if p3.1 = 0 then some none
            else
              (pullUIntVar p3.2).bind fun p4 =>
                (pullUIntVar p4.2).bind fun p5 =>
                  (pullBytes p5.1 p5.2).bind fun p6 =>
                    if p4.1 = SetupParamType.MAX_SUBSCRIBER_ID then
                      ((pullUIntVar p6.1).map (fun q => ParamValue.vint q.1)).bind
                        fun pv =>
                          some (some (ClientSetup.create none p2.1
                            (dictInsert [] p4.1 pv)))
                    else
                      (some (ParamValue.bytes p6.1)).bind fun pv =>
                        some (some (ClientSetup.create none p2.1
                          (dictInsert [] p4.1 pv))) := rfl

/-- Unfolding lemma: `GoAway.payload` as an explicit bind chain. -/
theorem goAway_payload_eq (m : GoAway) :
    m.payload =
      (pushUIntVar m.new_session_uri.length).bind fun lenB =>
        some (lenB ++ m.new_session_uri) := rfl

/-- Unfolding lemma: `GoAway.deserialize` as an explicit bind chain. -/
theorem goAway_deserialize_eq (data : List Nat) :
    GoAway.deserialize data =
      (pullUIntVar data).bind fun p1 =>
        (pullBytes p1.1 p1.2).bind fun p2 =>
          some (GoAway.create none p2.1) := rfl

/-- `GoAway` round-trips: deserializing the payload its serializer framed
reconstructs the URI. -/
theorem GoAway.deserialize_payload (m : GoAway) (p : List Nat)
    (hp : m.payload = some p) :
    GoAway.deserialize p = some (GoAway.create none m.new_session_uri) := by
  rw [goAway_payload_eq] at hp
  simp only [Option.bind_eq_some, Option.some.injEq] at hp
  obtain ⟨lenB, hlen, hp⟩ := hp
  subst hp
  rw [goAway_deserialize_eq, pullUIntVar_pushUIntVar _ _ _ hlen]
  simp only [Option.some_bind]
  rw [pullBytes_self]
  simp only [Option.some_bind]

/-- `ClientSetup` round-trips exactly when the message carries a single
parameter whose key is not `MAX_SUBSCRIBER_ID`: the deserializer's early
return inside the parameter loop then reproduces the whole message. -/
theorem ClientSetup.deserialize_payload_single (m : ClientSetup) (p : List Nat)
    (k : Nat) (v : List Nat)
    (hp : m.payload = some p)
    (hparams : m.parameters = [(k, ParamValue.bytes v)])
    (hk : k ≠ SetupParamType.MAX_SUBSCRIBER_ID) :
    ClientSetup.deserialize p =
      some (some (ClientSetup.create none m.versions m.parameters)) := by
  rw [clientSetup_payload_eq, hparams] at hp
  simp only [Option.bind_eq_some] at hp
  obtain ⟨vcntB, hvcnt, versB, hvers, pcntB, hpcnt, entriesB, hent, hp⟩ := hp
  split_ifs at hp with hcap
  injection hp with hp
  subst hp
  rw [serializeParamEntries_cons] at hent
  simp only [paramBytes, Option.bind_eq_some, Option.some.injEq] at hent
  obtain ⟨idB, hid, vB, hvB, lenB, hlen, restB, hrestB, hent⟩ := hent
  subst hvB
  simp only [serializeParamEntries, Option.some.injEq] at hrestB
  subst hrestB
  rw [List.append_nil] at hent
  subst hent
  have e1 : vcntB ++ versB ++ pcntB ++ (idB ++ lenB ++ v) =
      vcntB ++ (versB ++ (pcntB ++ (idB ++ (lenB ++ v)))) := by
    simp
  rw [clientSetup_deserialize_eq, e1, pullUIntVar_pushUIntVar _ _ _ hvcnt]
  simp only [Option.some_bind]
  rw [pullVersions_pushVersionList m.versions [] versB _ hvers]
  simp only [Option.some_bind]
  rw [pullUIntVar_pushUIntVar _ _ _ hpcnt]
  simp only [Option.some_bind]
  rw [if_neg (by simp)]
  rw [pullUIntVar_pushUIntVar _ _ _ hid]
  simp only [Option.some_bind]
  rw [pullUIntVar_pushUIntVar _ _ _ hlen]
  simp only [Option.some_bind]
  rw [pullBytes_self]
  simp only [Option.some_bind]
  rw [if_neg hk]
  rw [hparams, List.nil_append]
  simp [dictInsert]

/-- When no key is `MAX_SUBSCRIBER_ID`, the deserializing loop's value
decoding is the identity on the entries. -/
theorem map_decodedParam_id (ps : List (Nat × ParamValue))
    (h : ∀ kv ∈ ps, kv.1 ≠ SetupParamType.MAX_SUBSCRIBER_ID) :
    ps.map decodedParam = ps := by
  induction ps with
  | nil => rfl
  | cons kv ps ih =>
    rw [List.map_cons, ih (fun x hx => h x (List.mem_cons_of_mem _ hx))]
    have hkv : decodedParam kv = kv := by
      obtain ⟨k, v⟩ := kv
      simp only [decodedParam]
      rw [if_neg (h (k, v) (List.mem_cons_self _ _))]
    rw [hkv]

/-- In a parameter list with distinct keys, an entry is determined by its
key. -/
theorem nodup_key_unique (ps : List (Nat × ParamValue))
    (hnodup : (ps.map Prod.fst).Nodup) (kv kw : Nat × ParamValue)
    (hkv : kv ∈ ps) (hkw : kw ∈ ps) (hk : kv.1 = kw.1) : kv = kw := by
  induction ps with
  | nil => cases hkv
  | cons p ps ih =>
    rw [List.map_cons, List.nodup_cons] at hnodup
    obtain ⟨hnotin, hnodup⟩ := hnodup
    rw [List.mem_cons] at hkv hkw
    rcases hkv with hkv | hkv <;> rcases hkw with hkw | hkw
    · rw [hkv, hkw]
    · exfalso
      apply hnotin
      rw [← hkv, hk]
      exact List.mem_map_of_mem Prod.fst hkw
    · exfalso
      apply hnotin
      rw [← hkw, ← hk]
      exact List.mem_map_of_mem Prod.fst hkv
    · exact ih hnodup hkv hkw

/-- Unfolding lemma: `ServerSetup.serialize` as an explicit bind chain. -/
theorem serverSetup_serialize_eq (m : ServerSetup) :
    m.serialize =
      m.payload.bind fun pl =>
        (pushUIntVar m.type).bind fun typeB =>
          (pushUIntVar pl.length).bind fun lenB =>
            if (typeB ++ lenB ++ pl).length ≤ BUFFER_CAPACITY then
              some (typeB ++ lenB ++ pl)
            else none := rfl

/-- Unfolding lemma: `ClientSetup.serialize` as an explicit bind chain. -/
theorem clientSetup_serialize_eq (m : ClientSetup) :
    m.serialize =
      m.payload.bind fun pl =>
        (pushUIntVar m.type).bind fun typeB =>
          (pushUIntVar pl.length).bind fun lenB =>
            if (typeB ++ lenB ++ pl).length ≤ BUFFER_CAPACITY then
              some (typeB ++ lenB ++ pl)
            else none := rfl

/-- Unfolding lemma: `GoAway.serialize` as an explicit bind chain. -/
theorem goAway_serialize_eq (m : GoAway) :
    m.serialize =
      (pushUIntVar m.type).bind fun typeB =>
        (pushUIntVar (1 + m.new_session_uri.length)).bind fun sizeB =>
          m.payload.bind fun pl =>
            if (typeB ++ sizeB ++ pl).length ≤
                BUFFER_CAPACITY + m.new_session_uri.length then
              some (typeB ++ sizeB ++ pl)
            else none := rfl

/-- Unfolding lemma: `stripFrame` as an explicit bind chain. -/
theorem stripFrame_eq (bs : List Nat) :
    stripFrame bs =
      (pullUIntVar bs).bind fun p1 =>
        (pullUIntVar p1.2).bind fun p2 =>
          (pullBytes p2.1 p2.2).bind fun p3 =>
            some (p1.1, p3.1) := rfl

/-- A value below `2^6` is pushed as its single byte. -/
theorem pushUIntVar_small (n : Nat) (h : n ≤ 0x3F) : pushUIntVar n = some [n] := by
  unfold pushUIntVar
  rw [if_pos h]

/-- A successful `ServerSetup.serialize` (within the 32-byte buffers)
frames its payload so that declared-length stripping recovers exactly the
payload buffer. -/
theorem serverSetup_stripFrame_serialize (m : ServerSetup) (bs : List Nat)
    (h : m.serialize = some bs) :
    ∃ pl, m.payload = some pl ∧ stripFrame bs = some (m.type, pl) := by
  rw [serverSetup_serialize_eq] at h
  simp only [Option.bind_eq_some] at h
  obtain ⟨pl, hpl, typeB, htype, lenB, hlen, h⟩ := h
  split_ifs at h with hcap
  injection h with h
  subst h
  refine ⟨pl, hpl, ?_⟩
  have e1 : typeB ++ lenB ++ pl = typeB ++ (lenB ++ pl) := by
    simp
  rw [stripFrame_eq, e1, pullUIntVar_pushUIntVar _ _ _ htype]
  simp only [Option.some_bind]
  rw [pullUIntVar_pushUIntVar _ _ _ hlen]
  simp only [Option.some_bind]
  rw [pullBytes_self]
  simp only [Option.some_bind]

/-- A successful `ClientSetup.serialize` (within the 32-byte buffers)
frames its payload so that declared-length stripping recovers exactly the
payload buffer. -/
theorem clientSetup_stripFrame_serialize (m : ClientSetup) (bs : List Nat)
    (h : m.serialize = some bs) :
    ∃ pl, m.payload = some pl ∧ stripFrame bs = some (m.type, pl) := by
  rw [clientSetup_serialize_eq] at h
  simp only [Option.bind_eq_some] at h
  obtain ⟨pl, hpl, typeB, htype, lenB, hlen, h⟩ := h
  split_ifs at h with hcap
  injection h with h
  subst h
  refine ⟨pl, hpl, ?_⟩
  have e1 : typeB ++ lenB ++ pl = typeB ++ (lenB ++ pl) := by
    simp
  rw [stripFrame_eq, e1, pullUIntVar_pushUIntVar _ _ _ htype]
  simp only [Option.some_bind]
  rw [pullUIntVar_pushUIntVar _ _ _ hlen]
  simp only [Option.some_bind]
  rw [pullBytes_self]
  simp only [Option.some_bind]

/-- With a URI of at most 63 bytes the `GoAway` frame's declared payload
size (`1 + len(uri)`) is correct — the URI-length varint is one byte — so
declared-length stripping recovers exactly the written payload.  (For
longer URIs stripping by the declared length truncates the payload; see
the C4 theorem and the C1 counterexample.) -/
theorem goAway_stripFrame_serialize (m : GoAway) (bs : List Nat)
    (hshort : m.new_session_uri.length ≤ 0x3F)
    (h : m.serialize = some bs) :
    ∃ pl, m.payload = some pl ∧ stripFrame bs = some (m.type, pl) := by
  rw [goAway_serialize_eq] at h
  simp only [Option.bind_eq_some] at h
  obtain ⟨typeB, htype, sizeB, hsize, pl, hpl, h⟩ := h
  split_ifs at h with hcap
  injection h with h
  subst h
  refine ⟨pl, hpl, ?_⟩
  rw [goAway_payload_eq] at hpl
  simp only [Option.bind_eq_some, Option.some.injEq] at hpl
  obtain ⟨lenB, hlenB, hpl⟩ := hpl
  rw [pushUIntVar_small _ hshort] at hlenB
  injection hlenB with hlenB
  subst hlenB
  subst hpl
  have e1 : typeB ++ sizeB ++ ([m.new_session_uri.length] ++ m.new_session_uri) =
      typeB ++ (sizeB ++ ([m.new_session_uri.length] ++ m.new_session_uri)) := by
    simp
  rw [stripFrame_eq, e1, pullUIntVar_pushUIntVar _ _ _ htype]
  simp only [Option.some_bind]
  rw [pullUIntVar_pushUIntVar _ _ _ hsize]
  simp only [Option.some_bind]
  have hlen2 : ([m.new_session_uri.length] ++ m.new_session_uri).length =
      1 + m.new_session_uri.length := by
    simp
    omega
  rw [← hlen2, pullBytes_self]
  simp only [Option.some_bind]

/-! ## Claim theorems -/

/-- Claim C1, counterexample: round-trip fails as stated, on three
concrete inputs.  A `ServerSetup` whose parameter map carries
`MAX_SUBSCRIBER_ID ↦ bytes [10]` serializes fine, but deserializing its
frame-stripped payload stores the decoded integer `10`, not the original
bytes; a `ClientSetup` with the empty parameter map — explicitly within
the claim's scope — deserializes to Python `None` instead of the message,
because the deserializer's `return` sits inside the parameter loop; and a
`GoAway` with a 64-byte URI declares a payload length one short (the C4
bug), so stripping the frame by the declared length, as the contract
requires, truncates the payload and deserialization fails. -/
theorem C1_roundtrip_counterexample :
    (ServerSetup.serialize (ServerSetup.create none 7 [(2, ParamValue.bytes [10])]) =
        some [64, 65, 5, 7, 1, 2, 1, 10] ∧
      stripFrame [64, 65, 5, 7, 1, 2, 1, 10] = some (65, [7, 1, 2, 1, 10]) ∧
      ServerSetup.deserialize [7, 1, 2, 1, 10] =
        some (ServerSetup.create none 7 [(2, ParamValue.vint 10)]) ∧
      ServerSetup.create none 7 [(2, ParamValue.vint 10)] ≠
        ServerSetup.create none 7 [(2, ParamValue.bytes [10])]) ∧
    (ClientSetup.serialize (ClientSetup.create none [7] []) =
        some [64, 64, 3, 1, 7, 0] ∧
      stripFrame [64, 64, 3, 1, 7, 0] = some (64, [1, 7, 0]) ∧
      ClientSetup.deserialize [1, 7, 0] = some none) ∧
    (GoAway.serialize (GoAway.create none (List.replicate 64 97)) =
        some ([16] ++ [64, 65] ++ ([64, 64] ++ List.replicate 64 97)) ∧
      stripFrame ([16] ++ [64, 65] ++ ([64, 64] ++ List.replicate 64 97)) =
        some (16, [64, 64] ++ List.replicate 63 97) ∧
      GoAway.deserialize ([64, 64] ++ List.replicate 63 97) = none) := by
  decide

/-- Claim C1 (amended): whenever `serialize` succeeds (its buffers are
fixed at 32 bytes — plus the URI length for `GoAway` — and overflow raises
`BufferWriteError`), stripping the outer frame by the declared payload
length and deserializing reconstructs the message: for every `GoAway`
whose URI is at most 63 bytes (beyond that the declared length is one
short — the C4 bug — and stripping truncates the payload); for every
`ServerSetup` whose parameter keys are distinct and avoid
`MAX_SUBSCRIBER_ID`; and for every `ClientSetup` carrying exactly one
parameter whose key is not `MAX_SUBSCRIBER_ID` (the deserializer returns
`None` on an empty parameter map and truncates after the first parameter —
the early-return discrepancy the spec's design notes flag). -/
theorem C1_roundtrip_amended :
    (∀ (m : GoAway) (bs : List Nat), m.type = MessageTypes.GOAWAY →
      m.new_session_uri.length ≤ 0x3F →
      m.serialize = some bs →
      ∃ pl, stripFrame bs = some (m.type, pl) ∧
        GoAway.deserialize pl = some m) ∧
    (∀ (m : ServerSetup) (bs : List Nat), m.type = MessageTypes.SERVER_SETUP →
      m.serialize = some bs →
      (m.parameters.map Prod.fst).Nodup →
      (∀ kv ∈ m.parameters, kv.1 ≠ SetupParamType.MAX_SUBSCRIBER_ID) →
      ∃ pl, stripFrame bs = some (m.type, pl) ∧
        ServerSetup.deserialize pl = some m) ∧
    (∀ (m : ClientSetup) (bs : List Nat) (k : Nat) (v : List Nat),
      m.type = MessageTypes.CLIENT_SETUP →
      m.serialize = some bs →
      m.parameters = [(k, ParamValue.bytes v)] →
      k ≠ SetupParamType.MAX_SUBSCRIBER_ID →
      ∃ pl, stripFrame bs = some (m.type, pl) ∧
        ClientSetup.deserialize pl = some (some m)) := by
  refine ⟨?_, ?_, ?_⟩
  · intro m bs htype hshort hser
    obtain ⟨pl, hpl, hstrip⟩ := goAway_stripFrame_serialize m bs hshort hser
    refine ⟨pl, hstrip, ?_⟩
    rw [GoAway.deserialize_payload m pl hpl]
    obtain ⟨t, uri⟩ := m
    simp only at htype
    rw [htype]
    rfl
  · intro m bs htype hser hnodup hkeys
    obtain ⟨pl, hpl, hstrip⟩ := serverSetup_stripFrame_serialize m bs hser
    refine ⟨pl, hstrip, ?_⟩
    have hmax : ∀ kv ∈ m.parameters, kv.1 = SetupParamType.MAX_SUBSCRIBER_ID →
        ∃ v, kv.2 = ParamValue.bytes v ∧ (pullUIntVar v).isSome :=
      fun kv hkv h2 => absurd h2 (hkeys kv hkv)
    show (ServerSetup.deserializeWithLog pl).map Prod.fst = some m
    rw [ServerSetup.deserializeWithLog_payload m pl hpl hnodup hmax,
      Option.map_some', map_decodedParam_id m.parameters hkeys]
    obtain ⟨t, ver, ps⟩ := m
    simp only at htype
    rw [htype]
    rfl
  · intro m bs k v htype hser hparams hk
    obtain ⟨pl, hpl, hstrip⟩ := clientSetup_stripFrame_serialize m bs hser
    refine ⟨pl, hstrip, ?_⟩
    rw [ClientSetup.deserialize_payload_single m pl k v hpl hparams hk]
    obtain ⟨t, vers, ps⟩ := m
    simp only at htype
    rw [htype]
    rfl

/-- Claim C1 witness: the amended round-trip evaluated at one concrete
message per variant, through serialization and declared-length frame
stripping. -/
theorem C1_roundtrip_amended_witness :
    (∃ pl, stripFrame [16, 3, 2, 104, 105] =
        some ((GoAway.create none [104, 105]).type, pl) ∧
      GoAway.deserialize pl = some (GoAway.create none [104, 105])) ∧
    (∃ pl, stripFrame [64, 65, 5, 7, 1, 0, 1, 1] =
        some ((ServerSetup.create none 7 [(0, ParamValue.bytes [1])]).type, pl) ∧
      ServerSetup.deserialize pl =
        some (ServerSetup.create none 7 [(0, ParamValue.bytes [1])])) ∧
    (∃ pl, stripFrame [64, 64, 6, 1, 7, 1, 5, 1, 9] =
        some ((ClientSetup.create none [7] [(5, ParamValue.bytes [9])]).type, pl) ∧
      ClientSetup.deserialize pl =
        some (some (ClientSetup.create none [7] [(5, ParamValue.bytes [9])]))) :=
  ⟨C1_roundtrip_amended.1 (GoAway.create none [104, 105]) [16, 3, 2, 104, 105]
      rfl (by decide) (by decide),
    C1_roundtrip_amended.2.1 (ServerSetup.create none 7 [(0, ParamValue.bytes [1])])
      [64, 65, 5, 7, 1, 0, 1, 1] rfl (by decide) (by decide) (by decide),
    C1_roundtrip_amended.2.2 (ClientSetup.create none [7] [(5, ParamValue.bytes [9])])
      [64, 64, 6, 1, 7, 1, 5, 1, 9] 5 [9] rfl (by decide) (by decide) (by decide)⟩

/-- Claim C2: a well-formed `ClientSetup` payload declaring one version
(`0xff000007`) and a parameter count of zero makes `ClientSetup.deserialize`
return Python `None` (the `return cls(...)` sits inside the parameter loop,
which never runs), not a `ClientSetup` with an empty parameter map as the
claim states. -/
theorem C2_empty_params_returns_none :
    ClientSetup.deserialize [1, 192, 0, 0, 0, 255, 0, 0, 7, 0] = some none ∧
    (∀ m : ClientSetup,
      ClientSetup.deserialize [1, 192, 0, 0, 0, 255, 0, 0, 7, 0] ≠ some (some m)) := by
  constructor
  · decide
  · intro m h
    rw [show ClientSetup.deserialize [1, 192, 0, 0, 0, 255, 0, 0, 7, 0] = some none
      from by decide] at h
    exact Option.noConfusion (Option.some.inj h)

/-- Claim C4: the outer framing invariant fails for `GoAway`: with a
64-byte URI the serializer declares a payload length of 65 (it hardcodes
one byte for the URI-length varint) while 66 payload bytes follow the
frame, because the length varint of 64 itself occupies two bytes. -/
theorem C4_goaway_frame_length_mismatch :
    GoAway.serialize (GoAway.create none (List.replicate 64 97)) =
      some ([16] ++ [64, 65] ++ ([64, 64] ++ List.replicate 64 97)) ∧
    parseFrame ([16] ++ [64, 65] ++ ([64, 64] ++ List.replicate 64 97)) =
      some (MessageTypes.GOAWAY, 65, [64, 64] ++ List.replicate 64 97) ∧
    ([64, 64] ++ List.replicate 64 97).length = 66 ∧ (65 : Nat) ≠ 66 := by
  decide

/-- Claim C3: dispatching `ServerSetup` while the control-session readiness
flag is already set makes `handle_server_setup` call `close` with the
`PROTOCOL_VIOLATION` code and the duplicate-setup reason, raise the error
to the caller, and leave the readiness flag and its set counter untouched —
the flag is never set a second time. -/
theorem C3_duplicate_server_setup (st : SessionState) (h : st.moqt_session = true) :
    (handle_server_setup st).2 = HandlerOutcome.raised duplicateSetupError ∧
    (handle_server_setup st).1.closeCalls =
      st.closeCalls ++ [(SessionCloseCode.PROTOCOL_VIOLATION, duplicateSetupError)] ∧
    (handle_server_setup st).1.setCount = st.setCount ∧
    (handle_server_setup st).1.moqt_session = st.moqt_session := by
  simp [handle_server_setup, h]

/-- Claim C3 witness: the duplicate-setup behaviour at a concrete
established session state. -/
theorem C3_duplicate_server_setup_witness :
    (handle_server_setup ⟨true, 1, []⟩).2 =
      HandlerOutcome.raised duplicateSetupError ∧
    (handle_server_setup ⟨true, 1, []⟩).1.closeCalls =
      [] ++ [(SessionCloseCode.PROTOCOL_VIOLATION, duplicateSetupError)] ∧
    (handle_server_setup ⟨true, 1, []⟩).1.setCount = 1 ∧
    (handle_server_setup ⟨true, 1, []⟩).1.moqt_session = true :=
  C3_duplicate_server_setup ⟨true, 1, []⟩ rfl

/-- Claim C5: if the transport-ready signal never arrives, `initialize`
fails with the transport timeout (the 30-time-unit `wait_for` bound) and
the session ends `Closed`; if the transport signal arrives in time but the
`SERVER_SETUP` signal never does, `initialize` fails with the handshake
timeout (the 10-time-unit bound) and the session ends `Closed`. -/
theorem C5_initialize_timeouts (env : InitEnv) :
    (env.wtReadyAt = none →
      MOQTClientProtocol.initSession env =
        (InitOutcome.transportTimeout, SessionPhase.closed)) ∧
    (∀ t, env.wtReadyAt = some t → t ≤ TRANSPORT_SETUP_TIMEOUT →
      env.serverSetupAt = none →
      MOQTClientProtocol.initSession env =
        (InitOutcome.handshakeTimeout, SessionPhase.closed)) := by
  constructor
  · intro hwt
    simp [MOQTClientProtocol.initSession, waitFor, hwt, phaseAfterInit]
  · intro t hwt ht hss
    simp [MOQTClientProtocol.initSession, waitFor, hwt, ht, hss, phaseAfterInit]

/-- Claim C5 witness: both timeout outcomes at concrete environments. -/
theorem C5_initialize_timeouts_witness :
    MOQTClientProtocol.initSession ⟨none, none⟩ =
      (InitOutcome.transportTimeout, SessionPhase.closed) ∧
    MOQTClientProtocol.initSession ⟨some 0, none⟩ =
      (InitOutcome.handshakeTimeout, SessionPhase.closed) :=
  ⟨(C5_initialize_timeouts ⟨none, none⟩).1 rfl,
    (C5_initialize_timeouts ⟨some 0, none⟩).2 0 rfl (by decide) rfl⟩

/-- Claim C6: `subscribe` with the absolute-range filter and no end-group
bound fails the constructor's filter/bounds validation — which runs while
the `Subscribe(...)` argument of `send_control_message` is evaluated — so
the control channel receives no bytes. -/
theorem C6_subscribe_absolute_range_no_write (chan : List (List Nat))
    (subscribe_id track_alias : Nat) (namespace_bytes track_name : List Nat)
    (priority group_order : Nat) (start_group start_object : Option Nat)
    (parameters : List (Nat × ParamValue)) :
    MOQTClientProtocol.subscribe chan subscribe_id track_alias namespace_bytes
      track_name priority group_order FilterType.ABSOLUTE_RANGE
      start_group start_object none parameters = (chan, false) := by
  simp [MOQTClientProtocol.subscribe, Subscribe.create]

/-- Claim C7: a well-formed `ServerSetup` payload whose (distinct-key)
parameter map carries `MAX_SUBSCRIBER_ID` with varint-decodable value
bytes deserializes to a message storing the decoded integer under that
key — not the raw bytes. -/
theorem C7_max_subscriber_id_decoded (m : ServerSetup) (p v : List Nat)
    (n : Nat) (r : List Nat)
    (hp : m.payload = some p)
    (hnodup : (m.parameters.map Prod.fst).Nodup)
    (hmem : (SetupParamType.MAX_SUBSCRIBER_ID, ParamValue.bytes v) ∈ m.parameters)
    (hv : pullUIntVar v = some (n, r)) :
    ∃ m', ServerSetup.deserialize p = some m' ∧
      (SetupParamType.MAX_SUBSCRIBER_ID, ParamValue.vint n) ∈ m'.parameters := by
  have hmax : ∀ kv ∈ m.parameters, kv.1 = SetupParamType.MAX_SUBSCRIBER_ID →
      ∃ w, kv.2 = ParamValue.bytes w ∧ (pullUIntVar w).isSome := by
    intro kv hkv hk1
    have heq : kv = (SetupParamType.MAX_SUBSCRIBER_ID, ParamValue.bytes v) :=
      nodup_key_unique m.parameters hnodup kv
        (SetupParamType.MAX_SUBSCRIBER_ID, ParamValue.bytes v) hkv hmem hk1
    refine ⟨v, ?_, ?_⟩
    · rw [heq]
    · rw [hv]
      rfl
  refine ⟨ServerSetup.create none m.selected_version
      (m.parameters.map decodedParam), ?_, ?_⟩
  · show (ServerSetup.deserializeWithLog p).map Prod.fst = _
    rw [ServerSetup.deserializeWithLog_payload m p hp hnodup hmax,
      Option.map_some']
  · have hmap := List.mem_map_of_mem decodedParam hmem
    have hdp : decodedParam (SetupParamType.MAX_SUBSCRIBER_ID, ParamValue.bytes v) =
        (SetupParamType.MAX_SUBSCRIBER_ID, ParamValue.vint n) := by
      simp [decodedParam, hv]
    rwa [hdp] at hmap

/-- Claim C7 witness: the spec's concrete scenario — deserializing a
payload carrying `MAX_SUBSCRIBER_ID ↦ varint 10` stores the integer 10. -/
theorem C7_max_subscriber_id_decoded_witness :
    ∃ m', ServerSetup.deserialize [7, 1, 2, 1, 10] = some m' ∧
      (SetupParamType.MAX_SUBSCRIBER_ID, ParamValue.vint 10) ∈ m'.parameters :=
  C7_max_subscriber_id_decoded
    (ServerSetup.create none 7 [(2, ParamValue.bytes [10])])
    [7, 1, 2, 1, 10] [10] 10 [] (by decide) (by decide) (by decide) (by decide)

/-- Claim C8: a well-formed setup payload containing a parameter whose key
is outside the known set deserializes without failure: the unknown key is
stored with its raw byte value in the parameter map and is error-logged,
never a hard parse error. -/
theorem C8_unknown_param_key (m : ServerSetup) (p : List Nat) (k : Nat)
    (v : List Nat)
    (hp : m.payload = some p)
    (hnodup : (m.parameters.map Prod.fst).Nodup)
    (hmem : (k, ParamValue.bytes v) ∈ m.parameters)
    (hk : isKnownParamKey k = false)
    (hmax : ∀ kv ∈ m.parameters, kv.1 = SetupParamType.MAX_SUBSCRIBER_ID →
      ∃ w, kv.2 = ParamValue.bytes w ∧ (pullUIntVar w).isSome) :
    ∃ m' logged, ServerSetup.deserializeWithLog p = some (m', logged) ∧
      (k, ParamValue.bytes v) ∈ m'.parameters ∧ k ∈ logged := by
  refine ⟨ServerSetup.create none m.selected_version
      (m.parameters.map decodedParam), unknownParamKeys m.parameters,
    ServerSetup.deserializeWithLog_payload m p hp hnodup hmax, ?_, ?_⟩
  · have hne2 : k ≠ SetupParamType.MAX_SUBSCRIBER_ID := by
      intro he
      rw [he] at hk
      exact absurd hk (by decide)
    have hdp : decodedParam (k, ParamValue.bytes v) = (k, ParamValue.bytes v) := by
      simp only [decodedParam]
      rw [if_neg hne2]
    have hmap := List.mem_map_of_mem decodedParam hmem
    rwa [hdp] at hmap
  · simp only [unknownParamKeys, List.mem_filter]
    constructor
    · exact List.mem_map_of_mem Prod.fst hmem
    · rw [hk]
      rfl

/-- Claim C8 witness: a payload with the unknown key 9 deserializes,
stores the raw bytes, and logs the key. -/
theorem C8_unknown_param_key_witness :
    ∃ m' logged, ServerSetup.deserializeWithLog [7, 1, 9, 2, 1, 2] =
        some (m', logged) ∧
      (9, ParamValue.bytes [1, 2]) ∈ m'.parameters ∧ 9 ∈ logged :=
  C8_unknown_param_key
    (ServerSetup.create none 7 [(9, ParamValue.bytes [1, 2])])
    [7, 1, 9, 2, 1, 2] 9 [1, 2] (by decide) (by decide) (by decide) (by decide)
    (fun kv hkv h2 => by
      have hkv2 : kv ∈ [((9 : Nat), ParamValue.bytes [1, 2])] := hkv
      rw [List.mem_singleton] at hkv2
      rw [hkv2] at h2
      exact absurd h2 (by decide))

/-- Claim C9: whatever `type` value is passed to a constructor, the
`__post_init__` hook leaves the message's `type` equal to the variant's
constant, and the only message-producing operation (`deserialize`) also
yields messages carrying the constant; no operation mutates a message
(every embedded operation is a pure function of the message). -/
theorem C9_type_invariant :
    (∀ (t : Option Nat) (ver : Nat) (ps : List (Nat × ParamValue)),
      (ServerSetup.create t ver ps).type = MessageTypes.SERVER_SETUP) ∧
    (∀ (t : Option Nat) (vs : List Nat) (ps : List (Nat × ParamValue)),
      (ClientSetup.create t vs ps).type = MessageTypes.CLIENT_SETUP) ∧
    (∀ (t : Option Nat) (uri : List Nat),
      (GoAway.create t uri).type = MessageTypes.GOAWAY) ∧
    (∀ (data : List Nat) (m : ServerSetup),
      ServerSetup.deserialize data = some m →
        m.type = MessageTypes.SERVER_SETUP) ∧
    (∀ (data : List Nat) (m : ClientSetup),
      ClientSetup.deserialize data = some (some m) →
        m.type = MessageTypes.CLIENT_SETUP) ∧
    (∀ (data : List Nat) (m : GoAway),
      GoAway.deserialize data = some m → m.type = MessageTypes.GOAWAY) := by
  refine ⟨fun _ _ _ => rfl, fun _ _ _ => rfl, fun _ _ => rfl, ?_, ?_, ?_⟩
  · intro data m h
    unfold ServerSetup.deserialize at h
    rw [Option.map_eq_some'] at h
    obtain ⟨pair, hpair, hm⟩ := h
    rw [serverSetup_deserializeWithLog_eq] at hpair
    simp only [Option.bind_eq_some, Option.some.injEq] at hpair
    obtain ⟨p1, h1, p2, h2, p3, h3, hpair⟩ := hpair
    rw [← hpair] at hm
    rw [← hm]
    rfl
  · intro data m h
    rw [clientSetup_deserialize_eq] at h
    simp only [Option.bind_eq_some] at h
    obtain ⟨p1, h1, p2, h2, p3, h3, h⟩ := h
    split_ifs at h with hc
    · simp at h
    · simp only [Option.bind_eq_some] at h
      obtain ⟨p4, h4, p5, h5, p6, h6, h⟩ := h
      split_ifs at h with hc2
      · simp only [Option.bind_eq_some, Option.some.injEq] at h
        obtain ⟨pv, hpv, h⟩ := h
        rw [← h]
        rfl
      · simp only [Option.some_bind, Option.some.injEq] at h
        rw [← h]
        rfl
  · intro data m h
    rw [goAway_deserialize_eq] at h
    simp only [Option.bind_eq_some, Option.some.injEq] at h
    obtain ⟨p1, h1, p2, h2, h⟩ := h
    rw [← h]
    rfl

/-- Claim C9 witness: constructors called with a wrong explicit `type`
argument still produce the variant constant, and concrete deserializations
carry it. -/
theorem C9_type_invariant_witness :
    (ServerSetup.create (some 5) 7 []).type = MessageTypes.SERVER_SETUP ∧
    (ClientSetup.create (some 5) [7] []).type = MessageTypes.CLIENT_SETUP ∧
    (GoAway.create (some 5) [104]).type = MessageTypes.GOAWAY ∧
    (ServerSetup.create none 7 []).type = MessageTypes.SERVER_SETUP ∧
    (ClientSetup.create none [7] [(5, ParamValue.bytes [9])]).type =
      MessageTypes.CLIENT_SETUP ∧
    (GoAway.create none [104]).type = MessageTypes.GOAWAY :=
  ⟨C9_type_invariant.1 (some 5) 7 [],
    C9_type_invariant.2.1 (some 5) [7] [],
    C9_type_invariant.2.2.1 (some 5) [104],
    C9_type_invariant.2.2.2.1 [7, 0] (ServerSetup.create none 7 []) (by decide),
    C9_type_invariant.2.2.2.2.1 [1, 7, 1, 5, 1, 9]
      (ClientSetup.create none [7] [(5, ParamValue.bytes [9])]) (by decide),
    C9_type_invariant.2.2.2.2.2 [1, 104] (GoAway.create none [104]) (by decide)⟩

/-- Claim C10: `ServerSetup.serialize` is total only on messages whose
parameter values are all byte strings — serialization success forces every
value to be bytes — and there is a well-formed wire payload (carrying a
`MAX_SUBSCRIBER_ID` parameter) whose deserialization stores an integer, so
re-serializing the returned message fails at the `len(value)` length
prefix. -/
theorem C10_serialize_partial :
    (∀ (m : ServerSetup) (bs : List Nat), ServerSetup.serialize m = some bs →
      ∀ kv ∈ m.parameters, ∃ v, kv.2 = ParamValue.bytes v) ∧
    (∃ (p : List Nat) (m : ServerSetup), ServerSetup.deserialize p = some m ∧
      ServerSetup.serialize m = none) := by
  constructor
  · intro m bs h
    rw [serverSetup_serialize_eq] at h
    simp only [Option.bind_eq_some] at h
    obtain ⟨pl, hpl, _⟩ := h
    rw [serverSetup_payload_eq] at hpl
    simp only [Option.bind_eq_some] at hpl
    obtain ⟨verB, hver, cntB, hcnt, entriesB, hent, _⟩ := hpl
    exact serializeParamEntries_bytes m.parameters entriesB hent
  · exact ⟨[3, 1, 2, 1, 10], ServerSetup.create none 3 [(2, ParamValue.vint 10)],
      by decide, by decide⟩

/-- Claim C10 witness: the bytes-only precondition evaluated on a message
that serializes successfully. -/
theorem C10_serialize_partial_witness :
    ∃ v, ((0 : Nat), ParamValue.bytes [5]).2 = ParamValue.bytes v :=
  C10_serialize_partial.1 (ServerSetup.create none 7 [(0, ParamValue.bytes [5])])
    [64, 65, 5, 7, 1, 0, 1, 5] (by decide) (0, ParamValue.bytes [5]) (by decide)
